import Mathlib

/-!
Verification development for the wuwu-logistics codex-responses plugin.

The definitions below are a shallow embedding of the Python source under
src/plugin-src: pure string manipulation is modelled by Lean functions on
String, the dynamic getattr-based field access is modelled by structures
with explicit default values standing for the getattr defaults, Python
dictionaries keyed by strings are modelled as association lists, and the
streaming handler is modelled as a state-passing fold over an explicit
event list.  Python string truthiness (the empty string is falsy) is
modelled by the helper pyOr.
-/

namespace Wuwu

/-! ## Python string primitives -/

/-- Python `a or b` for strings: the empty string is falsy. -/
def pyOr (a b : String) : String := if a = "" then b else a

/-- Characters removed by Python `str.strip()` (ASCII whitespace; the rare
non-ASCII Unicode whitespace accepted by Python is not modelled). -/
def isPyWhitespace (c : Char) : Bool :=
  c = ' ' || c = '\t' || c = '\n' || c = '\x0d' || c = '\x0b' || c = '\x0c'

/-- Python `str.strip()`. -/
def pyStrip (s : String) : String :=
  String.mk (((s.toList.dropWhile isPyWhitespace).reverse.dropWhile isPyWhitespace).reverse)

/-- Python `str.lower()` (ASCII case folding, which covers the model ids here). -/
def pyLower (s : String) : String := String.mk (s.toList.map Char.toLower)

/-- Suffix test, spelled out over character lists. -/
def strEndsWith (s suffix : String) : Bool :=
  decide (s.toList.reverse.take suffix.toList.length = suffix.toList.reverse)

/-- Removal of the last n characters, spelled out over character lists. -/
def strDropRight (s : String) (n : Nat) : String :=
  String.mk (s.toList.take (s.toList.length - n))

/-- Python `str.lstrip("-")`. -/
def lstripDash (s : String) : String := String.mk (s.toList.dropWhile (fun c => c = '-'))

/-- Python `not s.strip()`: true when the string is empty or all whitespace. -/
def pyStripIsEmpty (s : String) : Bool := s.toList.all isPyWhitespace

/-- The literal two-character string holding an opening and a closing curly
bracket, i.e. the serialized empty JSON object used as the default argument
payload throughout the source. -/
def jsonEmptyObject : String := "\x7b\x7d"

/-! ## Performance-tier resolution (llm.py lines 40-44 and 242-260) -/

/-- First character class of `_TIER_VALUE_PATTERN`: lowercase alphanumeric. -/
def isTierHead (c : Char) : Bool := (decide ('a' ≤ c) && decide (c ≤ 'z')) || c.isDigit

/-- Tail character class of `_TIER_VALUE_PATTERN`. -/
def isTierChar (c : Char) : Bool := isTierHead c || c = '.' || c = '_' || c = '-'

/-- The strict token pattern `^[a-z0-9][a-z0-9._-]{0,31}$` from
`_TIER_VALUE_PATTERN`. -/
def isTierToken (s : String) : Bool :=
  match s.toList with
  | [] => false
  | c :: rest => isTierHead c && decide (rest.length ≤ 31) && rest.all isTierChar

/-- The recognized tier words of `_TIER_SUFFIX_PATTERN`. -/
def tierWords : List String := ["medium", "high", "xhigh"]

/-- When the model id ends (case-insensitively) in a hyphen followed by one
recognized tier word, the length of that suffix; otherwise none.  The three
possible suffixes are mutually exclusive as string suffixes. -/
def tierSuffixLen (m : String) : Option Nat :=
  (tierWords.filterMap fun t =>
    if strEndsWith (pyLower m) ("-" ++ t) then some (t.toList.length + 1) else Option.none).head?

/-- `_TIER_SUFFIX_PATTERN.sub("", model)`: the regex is anchored at the end
and matches one or two hyphen-joined tier words, case-insensitively;
re.sub removes the leftmost match, which strips two trailing tier words
when present, else one, else nothing. -/
def stripTierSuffix (m : String) : String :=
  match tierSuffixLen m with
  | Option.none => m
  | some n1 =>
    let m1 := strDropRight m n1
    match tierSuffixLen m1 with
    | Option.none => m1
    | some n2 => strDropRight m1 n2

/-- The tier actually applied: the custom tier string
(`str(custom_tier_value or "").strip().lower().lstrip("-")`) when non-empty,
else the enumerated tier (`str(tier_value or "auto").strip().lower()`). -/
def effectiveTier (tier_value custom_tier_value : String) : String :=
  let custom := lstripDash (pyLower (pyStrip custom_tier_value))
  if custom ≠ "" then custom
  else pyLower (pyStrip (if tier_value = "" then "auto" else tier_value))

/-- `_resolve_model_with_performance_tier` (llm.py lines 242-260). -/
def resolveModelWithPerformanceTier (model tier_value custom_tier_value : String) : String :=
  if effectiveTier tier_value custom_tier_value = "" ∨
      effectiveTier tier_value custom_tier_value = "auto" then model
  else if isTierToken (effectiveTier tier_value custom_tier_value) = false then model
  else stripTierSuffix model ++ "-" ++ effectiveTier tier_value custom_tier_value

/-! ## JSON values (the values handled by json.loads / json.dumps)

The parser models Python json.loads on the fragment exercised by the
source: null, booleans, integer numbers, strings with the single-character
escapes, arrays and objects.  Fractional numbers and the \uXXXX escape are
not modelled; json.loads accepts them, the model rejects them. -/

inductive Jx where
  | jnull : Jx
  | jbool (b : Bool) : Jx
  | jnum (n : Int) : Jx
  | jstr (s : String) : Jx
  | jarr (xs : List Jx) : Jx
  | jobj (fields : List (String × Jx)) : Jx
deriving Repr

/-- Skip JSON whitespace. -/
def skipWs (cs : List Char) : List Char :=
  cs.dropWhile (fun c => c = ' ' || c = '\t' || c = '\n' || c = '\x0d')

/-- Parse the body of a JSON string after the opening quote, yielding the
decoded characters and the remaining input. -/
def parseStringAux : List Char → Option (List Char × List Char)
  | [] => Option.none
  | '"' :: rest => some ([], rest)
  | '\\' :: c :: rest =>
    match (match c with
      | '"' => some '"'
      | '\\' => some '\\'
      | '/' => some '/'
      | 'n' => some '\n'
      | 't' => some '\t'
      | 'r' => some '\x0d'
      | 'b' => some '\x08'
      | 'f' => some '\x0c'
      | _ => Option.none) with
    | some esc => (parseStringAux rest).map (fun p => (esc :: p.1, p.2))
    | Option.none => Option.none
  | c :: rest => (parseStringAux rest).map (fun p => (c :: p.1, p.2))

/-- Digits of a decimal literal folded into a natural number. -/
def digitsToNat (ds : List Char) : Nat :=
  ds.foldl (fun acc c => acc * 10 + (c.toNat - '0'.toNat)) 0

/-- Parse a (possibly negative) integer literal. -/
def parseNum (cs : List Char) : Option (Jx × List Char) :=
  match cs with
  | '-' :: rest =>
    let ds := rest.takeWhile Char.isDigit
    if ds.isEmpty then Option.none
    else some (.jnum (-(digitsToNat ds : Int)), rest.dropWhile Char.isDigit)
  | _ =>
    let ds := cs.takeWhile Char.isDigit
    if ds.isEmpty then Option.none
    else some (.jnum (digitsToNat ds : Int), cs.dropWhile Char.isDigit)

mutual

/-- Fuel-bounded recursive-descent JSON value parser. -/
def parseVal : Nat → List Char → Option (Jx × List Char)
  | 0, _ => Option.none
  | fuel + 1, cs =>
    match skipWs cs with
    | 'n' :: 'u' :: 'l' :: 'l' :: rest => some (.jnull, rest)
    | 't' :: 'r' :: 'u' :: 'e' :: rest => some (.jbool true, rest)
    | 'f' :: 'a' :: 'l' :: 's' :: 'e' :: rest => some (.jbool false, rest)
    | '"' :: rest => (parseStringAux rest).map (fun p => (.jstr (String.mk p.1), p.2))
    | '\x5b' :: rest =>
      (match skipWs rest with
       | '\x5d' :: rest2 => some (.jarr [], rest2)
       | rest2 => (parseElems fuel rest2).map (fun p => (.jarr p.1, p.2)))
    | '\x7b' :: rest =>
      (match skipWs rest with
       | '\x7d' :: rest2 => some (.jobj [], rest2)
       | rest2 => (parseMembers fuel rest2).map (fun p => (.jobj p.1, p.2)))
    | rest => parseNum rest

/-- One or more comma-separated array elements, ending at the closing
square bracket. -/
def parseElems : Nat → List Char → Option (List Jx × List Char)
  | 0, _ => Option.none
  | fuel + 1, cs =>
    match parseVal fuel cs with
    | Option.none => Option.none
    | some (v, rest) =>
      match skipWs rest with
      | ',' :: rest2 => (parseElems fuel rest2).map (fun p => (v :: p.1, p.2))
      | '\x5d' :: rest2 => some ([v], rest2)
      | _ => Option.none

/-- One or more comma-separated object members, ending at the closing
curly bracket. -/
def parseMembers : Nat → List Char → Option (List (String × Jx) × List Char)
  | 0, _ => Option.none
  | fuel + 1, cs =>
    match skipWs cs with
    | '"' :: rest =>
      (match parseStringAux rest with
       | Option.none => Option.none
       | some (key, rest2) =>
         match skipWs rest2 with
         | ':' :: rest3 =>
           (match parseVal fuel rest3 with
            | Option.none => Option.none
            | some (v, rest4) =>
              match skipWs rest4 with
              | ',' :: rest5 => (parseMembers fuel rest5).map (fun p => ((String.mk key, v) :: p.1, p.2))
              | '\x7d' :: rest5 => some ([(String.mk key, v)], rest5)
              | _ => Option.none)
         | _ => Option.none)
    | _ => Option.none

end

/-- Model of json.loads: parse one JSON value and require the rest of the
input to be whitespace. -/
def jsonLoads (s : String) : Option Jx :=
  match parseVal (s.length + 1) s.toList with
  | some (v, rest) => if skipWs rest = [] then some v else Option.none
  | Option.none => Option.none

/-- Escape one character for a JSON string literal (quote and backslash;
control-character escaping beyond these is not exercised here). -/
def escapeJsonChar (c : Char) : String :=
  if c = '"' then "\\\"" else if c = '\\' then "\\\\" else String.mk [c]

mutual

/-- Model of json.dumps with its default separators. -/
def dumpsJx : Jx → String
  | .jnull => "null"
  | .jbool true => "true"
  | .jbool false => "false"
  | .jnum n => toString n
  | .jstr s => "\"" ++ String.join (s.toList.map escapeJsonChar) ++ "\""
  | .jarr xs => "\x5b" ++ String.intercalate ", " (dumpsList xs) ++ "\x5d"
  | .jobj fields => "\x7b" ++ String.intercalate ", " (dumpsMembers fields) ++ "\x7d"

/-- Serialized array elements, in order. -/
def dumpsList : List Jx → List String
  | [] => []
  | x :: xs => dumpsJx x :: dumpsList xs

/-- Serialized object members, in order. -/
def dumpsMembers : List (String × Jx) → List String
  | [] => []
  | (k, v) :: fs =>
    ("\"" ++ String.join (k.toList.map escapeJsonChar) ++ "\": " ++ dumpsJx v) :: dumpsMembers fs

end

/-! ## Tool definitions and _convert_tool_to_response_tool (llm.py 334-349) -/

/-- The Python value found in a tool definition's parameters field:
a string, a dict, or anything else. -/
inductive ToolParams where
  | pstr (s : String) : ToolParams
  | pdict (fields : List (String × Jx)) : ToolParams
  | pother : ToolParams
deriving Repr

/-- PromptMessageTool: name, description and JSON-schema-shaped parameters. -/
structure PromptMessageTool where
  name : String
  description : String
  parameters : ToolParams
deriving Repr

/-- The remote tool spec built by the converter. -/
structure ResponseTool where
  type : String
  name : String
  description : String
  parameters : Jx
deriving Repr

/-- The degraded empty-object schema. -/
def emptySchema : Jx := .jobj [("type", .jstr "object"), ("properties", .jobj [])]

/-- `_convert_tool_to_response_tool` (llm.py 334-349): a string is parsed
with json.loads and a parse failure degrades to the empty schema; a
successfully parsed value passes through whatever its shape; a dict passes
through; any other value degrades to the empty schema.  The function is
total: the only fallible operation, json.loads, is guarded by the
except-branch in the source. -/
def convertToolToResponseTool (tool : PromptMessageTool) : ResponseTool :=
  let parameters : Jx :=
    match tool.parameters with
    | .pstr s =>
      (match jsonLoads s with
       | some v => v
       | Option.none => emptySchema)
    | .pdict fields => .jobj fields
    | .pother => emptySchema
  { type := "function"
  , name := tool.name
  , description := pyOr tool.description ""
  , parameters := parameters }

/-! ## Error classification (common_openai.py 28-41 and llm.py 646-653) -/

/-- The exception classes appearing in `_invoke_error_mapping`, plus the
intermediate APIStatusError base class and a stand-in for any unrelated
exception. -/
inductive ExcClass where
  | apiConnectionError | apiTimeoutError
  | apiStatusError
  | internalServerError | rateLimitError
  | authenticationError | permissionDeniedError
  | badRequestError | notFoundError | unprocessableEntityError
  | apiError
  | otherException
deriving Repr, DecidableEq

/-- The superclass chain of each openai exception class (including the
class itself), as defined by the openai python library:
APITimeoutError < APIConnectionError < APIError, and every status error
< APIStatusError < APIError. -/
def ExcClass.ancestors : ExcClass → List ExcClass
  | .apiConnectionError => [.apiConnectionError, .apiError]
  | .apiTimeoutError => [.apiTimeoutError, .apiConnectionError, .apiError]
  | .apiStatusError => [.apiStatusError, .apiError]
  | .internalServerError => [.internalServerError, .apiStatusError, .apiError]
  | .rateLimitError => [.rateLimitError, .apiStatusError, .apiError]
  | .authenticationError => [.authenticationError, .apiStatusError, .apiError]
  | .permissionDeniedError => [.permissionDeniedError, .apiStatusError, .apiError]
  | .badRequestError => [.badRequestError, .apiStatusError, .apiError]
  | .notFoundError => [.notFoundError, .apiStatusError, .apiError]
  | .unprocessableEntityError => [.unprocessableEntityError, .apiStatusError, .apiError]
  | .apiError => [.apiError]
  | .otherException => [.otherException]

/-- Python isinstance for the modelled class hierarchy. -/
def isInstanceOf (e c : ExcClass) : Bool := c ∈ e.ancestors

/-- The closed taxonomy of invocation errors raised by the wrapper. -/
inductive MappedError where
  | invokeConnectionError
  | invokeServerUnavailableError
  | invokeRateLimitError
  | invokeAuthorizationError
  | invokeBadRequestError
  | invokeError
deriving Repr, DecidableEq

/-- `_invoke_error_mapping` (common_openai.py 28-41), in its insertion
order, which is the iteration order of the Python dict. -/
def invokeErrorMapping : List (MappedError × List ExcClass) :=
  [ (.invokeConnectionError, [.apiConnectionError, .apiTimeoutError])
  , (.invokeServerUnavailableError, [.internalServerError])
  , (.invokeRateLimitError, [.rateLimitError])
  , (.invokeAuthorizationError, [.authenticationError, .permissionDeniedError])
  , (.invokeBadRequestError,
      [.badRequestError, .notFoundError, .unprocessableEntityError, .apiError]) ]

/-- `_with_invoke_error_mapping` (llm.py 646-653) restricted to the raising
path: the first table entry whose class tuple matches the exception by
isinstance determines the raised error; with no match the generic
InvokeError is raised. -/
def withInvokeErrorMapping (e : ExcClass) : MappedError :=
  match invokeErrorMapping.find? (fun entry => entry.2.any (fun c => isInstanceOf e c)) with
  | some entry => entry.1
  | Option.none => .invokeError

/-! ## Messages, tool calls and _extract_text (llm.py 612-644) -/

/-- AssistantPromptMessage.ToolCall.ToolCallFunction. -/
structure ToolCallFunction where
  name : String
  arguments : String
deriving Repr, DecidableEq

/-- AssistantPromptMessage.ToolCall. -/
structure ToolCall where
  id : String
  type : String
  function : ToolCallFunction
deriving Repr, DecidableEq

/-- `_build_tool_call` (llm.py 612-626): the id falls back to the function
name when the call id is empty, and the arguments default to the empty
JSON object when empty. -/
def buildToolCall (function_name call_id arguments : String) : ToolCall :=
  { id := pyOr call_id function_name
  , type := "function"
  , function := { name := function_name, arguments := pyOr arguments jsonEmptyObject } }

/-- One item of a multi-part message content list: a text part, an image
part (url, inline data, optional detail), or an unrecognized part. -/
inductive ContentItem where
  | text (data : String) : ContentItem
  | image (url : String) (data : String) (detail : Option String) : ContentItem
  | otherItem : ContentItem
deriving Repr, DecidableEq

/-- Message content: a plain string, a list of parts, or Python None. -/
inductive MessageContent where
  | str (s : String) : MessageContent
  | parts (items : List ContentItem) : MessageContent
  | noContent : MessageContent
deriving Repr, DecidableEq

/-- The generic prompt-message model: System, User, Assistant (with tool
calls), Tool (with a tool call id), or an unrecognized message type. -/
inductive PromptMessage where
  | system (content : MessageContent) : PromptMessage
  | user (content : MessageContent) : PromptMessage
  | assistant (content : MessageContent) (tool_calls : List ToolCall) : PromptMessage
  | tool (content : MessageContent) (tool_call_id : String) : PromptMessage
  | otherMessage (content : MessageContent) : PromptMessage
deriving Repr, DecidableEq

/-- The content of a message, uniformly over the variants. -/
def PromptMessage.content : PromptMessage → MessageContent
  | .system c => c
  | .user c => c
  | .assistant c _ => c
  | .tool c _ => c
  | .otherMessage c => c

/-- `_extract_text` (llm.py 628-644): plain-string content passes through;
list content collects the data of text parts and joins the non-empty
chunks with newlines; anything else yields the empty string. -/
def extractText (message : PromptMessage) : String :=
  match message.content with
  | .str s => s
  | .parts items =>
    String.intercalate "\n"
      (((items.filterMap fun item =>
          match item with
          | .text data => some data
          | _ => Option.none)).filter (fun chunk => chunk ≠ ""))
  | .noContent => ""

/-! ## Request encoding (llm.py 262-332) -/

/-- One part of a multi-part user entry in the request payload. -/
inductive RequestContentPart where
  | inputText (text : String) : RequestContentPart
  | inputImage (image_url : String) (detail : Option String) : RequestContentPart
deriving Repr, DecidableEq

/-- One entry of the flattened responses-API input list. -/
inductive RequestEntry where
  | roleText (role : String) (content : String) : RequestEntry
  | roleParts (role : String) (content : List RequestContentPart) : RequestEntry
  | functionCall (call_id : String) (name : String) (arguments : String) : RequestEntry
  | functionCallOutput (call_id : String) (output : String) : RequestEntry
deriving Repr, DecidableEq

/-- The request content parts produced from one user content item:
text parts map to input_text, image parts map to input_image preferring
the explicit url over inline data, other parts are skipped. -/
def userContentPart : ContentItem → Option RequestContentPart
  | .text data => some (.inputText data)
  | .image url data detail => some (.inputImage (pyOr url data) detail)
  | .otherItem => Option.none

/-- The request entries produced from one prompt message
(`_convert_prompt_messages_to_responses_input`, one loop iteration). -/
def convertMessage (message : PromptMessage) : List RequestEntry :=
  match message with
  | .system _ =>
    let content := extractText message
    if content = "" then [] else [.roleText "developer" content]
  | .user c =>
    (match c with
     | .str s => [.roleText "user" s]
     | .parts items =>
       let content_parts := items.filterMap userContentPart
       if content_parts = [] then [] else [.roleParts "user" content_parts]
     | .noContent => [])
  | .assistant _ tool_calls =>
    (let assistant_text := extractText message
     if assistant_text = "" then [] else [.roleText "assistant" assistant_text]) ++
    tool_calls.map (fun tool_call =>
      .functionCall (pyOr tool_call.id tool_call.function.name)
        tool_call.function.name (pyOr tool_call.function.arguments jsonEmptyObject))
  | .tool _ tool_call_id =>
    [.functionCallOutput tool_call_id (pyOr (extractText message) "")]
  | .otherMessage _ =>
    let text := extractText message
    if text = "" then [] else [.roleText "user" text]

/-- `_convert_prompt_messages_to_responses_input` (llm.py 262-332). -/
def convertPromptMessagesToResponsesInput (prompt_messages : List PromptMessage) : List RequestEntry :=
  (prompt_messages.map convertMessage).flatten

/-! ## Remote response objects (as probed by getattr in llm.py) -/

/-- One nested content part of a message-kind output item; the getattr
defaults for a missing attribute are the empty string. -/
structure ResponsePart where
  type : String := ""
  text : String := ""
deriving Repr

/-- One output item of a remote response.  A single structure models the
loosely-typed item objects: each field carries its getattr default. -/
structure ResponseItem where
  type : String := ""
  content : List ResponsePart := []
  text : String := ""
  name : String := ""
  arguments : ToolParams := .pstr "\x7b\x7d"
  call_id : String := ""
  id : String := ""
deriving Repr

/-- The usage object of a remote response; None fields model both a
missing attribute and an attribute holding None. -/
structure RemoteUsage where
  input_tokens : Option Nat := Option.none
  prompt_tokens : Option Nat := Option.none
  output_tokens : Option Nat := Option.none
  completion_tokens : Option Nat := Option.none
deriving Repr, DecidableEq

/-- A remote response object.  output_text none models a response without
the denormalized full-text attribute; modelField none models a response
without a model attribute. -/
structure RemoteResponse where
  output_text : Option String := Option.none
  output : List ResponseItem := []
  usage : Option RemoteUsage := Option.none
  modelField : Option String := Option.none
  id : String := ""
deriving Repr

/-- `_extract_response_text` (llm.py 553-575): walk the output items;
message items contribute their text-like content parts, top-level
text-like items contribute their text; empty texts are skipped; the
chunks are concatenated without separator. -/
def extractResponseText (response : RemoteResponse) : String :=
  String.join ((response.output.map fun item =>
    if item.type = "message" then
      item.content.filterMap fun part =>
        if (part.type = "output_text" ∨ part.type = "text" ∨ part.type = "input_text")
            ∧ part.text ≠ "" then
          some part.text
        else Option.none
    else if item.type = "output_text" ∨ item.type = "text" then
      (if item.text ≠ "" then [item.text] else [])
    else []).flatten)

/-- `_extract_response_tool_calls` (llm.py 577-610): function-call items
with a non-empty name become tool calls; dict arguments are serialized,
non-string non-dict arguments default to the empty JSON object; the call
id falls back from call_id through the item id to the empty string. -/
def extractResponseToolCalls (response : RemoteResponse) : List ToolCall :=
  response.output.filterMap fun item =>
    if item.type ≠ "function_call" then Option.none
    else if item.name = "" then Option.none
    else
      let arguments :=
        match item.arguments with
        | .pstr s => s
        | .pdict fields => dumpsJx (.jobj fields)
        | .pother => jsonEmptyObject
      some (buildToolCall item.name (pyOr item.call_id item.id) arguments)

/-! ## Token counting and usage (llm.py 140-166 and 511-551)

The tiktoken encoder is an external collaborator; it is modelled by an
abstract token-count function enc from texts to counts, standing for
len(encoding.encode(text)) after the encoding has been resolved. -/

/-- json.dumps(tool.parameters or \x7b\x7d) as used by get_num_tokens; the
opaque non-serializable case is approximated by the empty object. -/
def dumpsParams : ToolParams → String
  | .pstr s => if s = "" then dumpsJx (.jobj []) else dumpsJx (.jstr s)
  | .pdict fields => if fields.isEmpty then dumpsJx (.jobj []) else dumpsJx (.jobj fields)
  | .pother => dumpsJx (.jobj [])

/-- `get_num_tokens` (llm.py 140-166): join the non-empty extracted texts
of the messages with newlines; an empty joined text yields zero without
invoking the encoder; otherwise count its tokens and add, per tool, the
token counts of the name, the description and the serialized parameters. -/
def getNumTokens (enc : String → Nat) (prompt_messages : List PromptMessage)
    (tools : List PromptMessageTool) : Nat :=
  let text := String.intercalate "\n"
    ((prompt_messages.map extractText).filter (fun part => part ≠ ""))
  if text = "" then 0
  else
    enc text +
      (tools.map fun tool =>
        enc (pyOr tool.name "") + enc (pyOr tool.description "") +
          enc (dumpsParams tool.parameters)).sum

/-- Python `a or b or 0` over two optional counts: None and 0 are falsy. -/
def coalesceCount (a b : Option Nat) : Nat :=
  match a with
  | some n => if n = 0 then (match b with | some m => m | Option.none => 0) else n
  | Option.none => (match b with | some m => m | Option.none => 0)

/-- The resolved usage of a turn: the two token counts.  The downstream
cost fields computed by _calc_response_usage are out of scope. -/
structure Usage where
  prompt_tokens : Nat
  completion_tokens : Nat
deriving Repr, DecidableEq

/-- `_build_usage` (llm.py 511-551): prefer the remote counts, accepting
input_tokens or prompt_tokens for the prompt side and output_tokens or
completion_tokens for the completion side; when a resolved count is zero
(which covers a missing usage object and zero or missing fields) fall
back to local tokenization, of the prompt messages plus tools on the
prompt side and of the assembled assistant message on the completion
side. -/
def buildUsage (enc : String → Nat) (response : Option RemoteResponse)
    (prompt_messages : List PromptMessage) (assistant_prompt_message : PromptMessage)
    (tools : List PromptMessageTool) : Usage :=
  let response_usage : Option RemoteUsage :=
    match response with
    | some r => r.usage
    | Option.none => Option.none
  let prompt_tokens :=
    match response_usage with
    | some u => coalesceCount u.input_tokens u.prompt_tokens
    | Option.none => 0
  let completion_tokens :=
    match response_usage with
    | some u => coalesceCount u.output_tokens u.completion_tokens
    | Option.none => 0
  let prompt_tokens :=
    if prompt_tokens = 0 then getNumTokens enc prompt_messages tools else prompt_tokens
  let completion_tokens :=
    if completion_tokens = 0 then getNumTokens enc [assistant_prompt_message] []
    else completion_tokens
  { prompt_tokens := prompt_tokens, completion_tokens := completion_tokens }

/-! ## Non-streaming decode (llm.py 351-382) -/

/-- The final turn produced from a non-streaming response. -/
structure LLMResult where
  model : String
  message_content : String
  message_tool_calls : List ToolCall
  usage : Usage
  system_fingerprint : String
deriving Repr

/-- `_handle_responses_response` (llm.py 351-382): the content prefers the
denormalized output_text attribute when present and non-empty, else the
walked extraction; tool calls come from the function-call items; the
result model echoes the response model attribute when present. -/
def handleResponsesResponse (enc : String → Nat) (model : String)
    (response : RemoteResponse) (prompt_messages : List PromptMessage)
    (tools : List PromptMessageTool) : LLMResult :=
  let content :=
    match response.output_text with
    | some t => pyOr t (extractResponseText response)
    | Option.none => extractResponseText response
  let tool_calls := extractResponseToolCalls response
  let assistant_prompt_message := PromptMessage.assistant (.str content) tool_calls
  let usage := buildUsage enc (some response) prompt_messages assistant_prompt_message tools
  { model := (match response.modelField with | some m => m | Option.none => model)
  , message_content := content
  , message_tool_calls := tool_calls
  , usage := usage
  , system_fingerprint := response.id }

/-! ## The streaming handler (llm.py 384-509) -/

/-- The item carried by output_item events, with getattr defaults. -/
structure StreamItem where
  type : String := ""
  call_id : String := ""
  name : String := ""
  arguments : String := ""
deriving Repr, DecidableEq

/-- The typed stream events dispatched on by event type.  Fields model the
getattr probes: a missing string attribute is the empty string; the
arguments field of the arguments-done event is none when the attribute
holds a non-string value (failing the isinstance check) and some of the
string otherwise. -/
inductive StreamEvent where
  | outputTextDelta (delta : String) (item_id : String) : StreamEvent
  | outputItemAdded (item : Option StreamItem) : StreamEvent
  | functionCallArgumentsDelta (delta : String) (item_id : String) : StreamEvent
  | functionCallArgumentsDone (item_id : String) (arguments : Option String) : StreamEvent
  | outputItemDone (item : Option StreamItem) : StreamEvent
  | completed (response : Option RemoteResponse) : StreamEvent
  | otherEvent : StreamEvent
deriving Repr

/-- One pending tool call: the dict value of pending_tool_calls. -/
structure PendingToolCall where
  name : String
  arguments : String
deriving Repr, DecidableEq

/-- The pending_tool_calls dict, as an association list in insertion
order. -/
abbrev PendingMap := List (String × PendingToolCall)

/-- Dict lookup. -/
def pmFind (m : PendingMap) (k : String) : Option PendingToolCall :=
  match m.find? (fun p => p.1 = k) with
  | some p => some p.2
  | Option.none => Option.none

/-- Dict assignment: overwrite in place when the key exists, else append. -/
def pmInsert (m : PendingMap) (k : String) (v : PendingToolCall) : PendingMap :=
  if m.any (fun p => p.1 = k) then
    m.map (fun p => if p.1 = k then (p.1, v) else p)
  else m ++ [(k, v)]

/-- In-place mutation of the entry at a key, when present. -/
def pmModify (m : PendingMap) (k : String) (f : PendingToolCall → PendingToolCall) : PendingMap :=
  m.map (fun p => if p.1 = k then (p.1, f p.2) else p)

/-- Dict deletion (a no-op on a missing key, matching the guarded del). -/
def pmErase (m : PendingMap) (k : String) : PendingMap :=
  m.filter (fun p => p.1 ≠ k)

/-- The local state of _handle_responses_stream_response. -/
structure StreamState where
  full_text : String
  index : Nat
  tool_calls : List ToolCall
  pending : PendingMap
  current_tool_call : Option String
  final_response : Option RemoteResponse

/-- The initial stream state. -/
def initialState : StreamState :=
  { full_text := ""
  , index := 0
  , tool_calls := []
  , pending := []
  , current_tool_call := Option.none
  , final_response := Option.none }

/-- The message part of an emitted chunk delta. -/
structure AssistantMessage where
  content : String
  tool_calls : List ToolCall := []
deriving Repr, DecidableEq

/-- The delta of an emitted chunk. -/
structure ChunkDelta where
  index : Nat
  message : AssistantMessage
  finish_reason : Option String := Option.none
  usage : Option Usage := Option.none
deriving Repr, DecidableEq

/-- One emitted LLMResultChunk.  The constant prompt_messages echo carried
by every chunk in the source is omitted as it never varies. -/
structure Chunk where
  model : String
  system_fingerprint : String
  delta : ChunkDelta
deriving Repr, DecidableEq

/-- One iteration of the event loop of _handle_responses_stream_response
(llm.py 400-487): the next state and the chunks emitted for this event. -/
def stepEvent (model : String) (st : StreamState) : StreamEvent → StreamState × List Chunk
  | .outputTextDelta delta item_id =>
    if delta = "" then (st, [])
    else
      ({ st with full_text := st.full_text ++ delta, index := st.index + 1 },
       [{ model := model
        , system_fingerprint := item_id
        , delta := { index := st.index
                   , message := { content := delta, tool_calls := [] }
                   , finish_reason := Option.none
                   , usage := Option.none } }])
  | .outputItemAdded item =>
    (match item with
     | some it =>
       if it.type = "function_call" ∧ it.call_id ≠ "" then
         ({ st with
              pending := pmInsert st.pending it.call_id { name := it.name, arguments := "" }
            , current_tool_call := some it.call_id }, [])
       else (st, [])
     | Option.none => (st, []))
  | .functionCallArgumentsDelta delta item_id =>
    (match (if item_id = "" then st.current_tool_call else some item_id) with
     | some call_id =>
       if delta ≠ "" ∧ call_id ≠ "" ∧ (pmFind st.pending call_id).isSome then
         let appended := pmModify st.pending call_id
           (fun e => { e with arguments := e.arguments ++ delta })
         ({ st with pending := appended }, [])
       else (st, [])
     | Option.none => (st, []))
  | .functionCallArgumentsDone item_id arguments =>
    (match (if item_id = "" then st.current_tool_call else some item_id), arguments with
     | some call_id, some final_args =>
       if call_id ≠ "" ∧ (pmFind st.pending call_id).isSome then
         let overwritten := pmModify st.pending call_id
           (fun e => { e with arguments := final_args })
         ({ st with pending := overwritten }, [])
       else (st, [])
     | _, _ => (st, []))
  | .outputItemDone item =>
    (match item with
     | Option.none => (st, [])
     | some it =>
       if it.type ≠ "function_call" then (st, [])
       else
         let fallback_arguments := pyOr it.arguments jsonEmptyObject
         let arguments :=
           if it.call_id ≠ "" then
             match pmFind st.pending it.call_id with
             | some entry => pyOr entry.arguments fallback_arguments
             | Option.none => fallback_arguments
           else fallback_arguments
         let withCall :=
           if it.name ≠ "" then
             let tool_call := buildToolCall it.name it.call_id arguments
             ({ st with
                  tool_calls := st.tool_calls ++ [tool_call]
                , index := st.index + 1 },
              [{ model := model
               , system_fingerprint := it.call_id
               , delta := { index := st.index
                          , message := { content := "", tool_calls := [tool_call] }
                          , finish_reason := Option.none
                          , usage := Option.none } }])
           else (st, [])
         ({ withCall.1 with
              pending := pmErase withCall.1.pending it.call_id
            , current_tool_call :=
                if withCall.1.current_tool_call = some it.call_id then Option.none
                else withCall.1.current_tool_call },
          withCall.2))
  | .completed response => ({ st with final_response := response }, [])
  | .otherEvent => (st, [])

/-- The whole event loop over an event list. -/
def processEvents (model : String) : StreamState → List StreamEvent → StreamState × List Chunk
  | st, [] => (st, [])
  | st, e :: es =>
    ((processEvents model (stepEvent model st e).1 es).1,
     (stepEvent model st e).2 ++ (processEvents model (stepEvent model st e).1 es).2)

/-- The finish reason of the terminal chunk (llm.py 498). -/
def finishReason (st : StreamState) : String :=
  if st.tool_calls ≠ [] ∧ pyStripIsEmpty st.full_text = true then "tool_calls" else "stop"

/-- The mandatory terminal chunk (llm.py 499-509): empty content, the
finish reason, the resolved usage, at the current index. -/
def terminalChunk (model : String) (enc : String → Nat)
    (prompt_messages : List PromptMessage) (tools : List PromptMessageTool)
    (st : StreamState) : Chunk :=
  { model := model
  , system_fingerprint := (match st.final_response with | some r => r.id | Option.none => "")
  , delta := { index := st.index
             , message := { content := "", tool_calls := [] }
             , finish_reason := some (finishReason st)
             , usage := some (buildUsage enc st.final_response prompt_messages
                 (.assistant (.str st.full_text) st.tool_calls) tools) } }

/-- `_handle_responses_stream_response` (llm.py 384-509): the chunks of
the event loop followed by the terminal chunk. -/
def runStream (model : String) (enc : String → Nat)
    (prompt_messages : List PromptMessage) (tools : List PromptMessageTool)
    (events : List StreamEvent) : List Chunk :=
  (processEvents model initialState events).2 ++
    [terminalChunk model enc prompt_messages tools (processEvents model initialState events).1]

/-- The id under which an event finalizes a tool call, when it does: only
an output_item.done event whose item is a function call with a non-empty
name finalizes one, under the item call id with the function name as
fallback. -/
def doneEventId : StreamEvent → Option String
  | .outputItemDone (some it) =>
    if it.type = "function_call" ∧ it.name ≠ "" then some (pyOr it.call_id it.name)
    else Option.none
  | _ => Option.none

/-- Comparator written from the amended wording of the claim about
effective arguments at finalization: the buffered arguments when the call
id is known to the pending map and the buffer is non-empty, else the item
arguments when non-empty, else the empty JSON object. -/
def specEffectiveArguments (st : StreamState) (it : StreamItem) : String :=
  match (if it.call_id = "" then Option.none else pmFind st.pending it.call_id) with
  | some entry =>
    if entry.arguments ≠ "" then entry.arguments else pyOr it.arguments jsonEmptyObject
  | Option.none => pyOr it.arguments jsonEmptyObject

/-! # Theorems -/

/-- Claim C5: performance-tier resolution.  Model gpt-5-high with tier
xhigh resolves to gpt-5-xhigh; tier auto or empty leaves any model id
unchanged; a tier value failing the strict token pattern (such as
Not Valid!) leaves any model id unchanged; otherwise the recognized tier
suffix (one or two tier words, case-insensitive) is stripped and the new
tier appended, and a non-empty custom tier string takes priority over the
enumerated tier choice. -/
theorem claim_C5_performance_tier_resolution :
    resolveModelWithPerformanceTier "gpt-5-high" "xhigh" "" = "gpt-5-xhigh"
    ∧ (∀ m : String, resolveModelWithPerformanceTier m "auto" "" = m)
    ∧ (∀ m : String, resolveModelWithPerformanceTier m "" "" = m)
    ∧ (∀ m : String, resolveModelWithPerformanceTier m "Not Valid!" "" = m)
    ∧ (∀ m t c : String, isTierToken (effectiveTier t c) = false →
        resolveModelWithPerformanceTier m t c = m)
    ∧ (∀ m t c : String, effectiveTier t c ≠ "" → effectiveTier t c ≠ "auto" →
        isTierToken (effectiveTier t c) = true →
        resolveModelWithPerformanceTier m t c = stripTierSuffix m ++ "-" ++ effectiveTier t c)
    ∧ (∀ t c : String, lstripDash (pyLower (pyStrip c)) ≠ "" →
        effectiveTier t c = lstripDash (pyLower (pyStrip c)))
    ∧ stripTierSuffix "gpt-5-HIGH" = "gpt-5"
    ∧ stripTierSuffix "m1-medium-xhigh" = "m1" := by
  refine ⟨by decide, ?_, ?_, ?_, ?_, ?_, ?_, by decide, by decide⟩
  · intro m
    unfold resolveModelWithPerformanceTier
    rw [show effectiveTier "auto" "" = "auto" from by decide]
    rw [if_pos (Or.inr rfl)]
  · intro m
    unfold resolveModelWithPerformanceTier
    rw [show effectiveTier "" "" = "auto" from by decide]
    rw [if_pos (Or.inr rfl)]
  · intro m
    unfold resolveModelWithPerformanceTier
    rw [show effectiveTier "Not Valid!" "" = "not valid!" from by decide]
    rw [if_neg (by decide), if_pos (by decide)]
  · intro m t c hbad
    unfold resolveModelWithPerformanceTier
    by_cases h1 : effectiveTier t c = "" ∨ effectiveTier t c = "auto"
    · rw [if_pos h1]
    · rw [if_neg h1, if_pos hbad]
  · intro m t c h1 h2 h3
    unfold resolveModelWithPerformanceTier
    rw [if_neg (by rintro (h | h); exact h1 h; exact h2 h)]
    rw [if_neg (by rw [h3]; decide)]
  · intro t c h
    unfold effectiveTier
    rw [if_pos h]

/-- Witness for claim C5: the theorem applied at gpt-5-high with enumerated
tier medium and custom tier xhigh, showing the custom tier takes priority
and the existing suffix is stripped. -/
theorem claim_C5_witness :
    resolveModelWithPerformanceTier "gpt-5-high" "medium" "xhigh" = "gpt-5-xhigh" := by
  have h := claim_C5_performance_tier_resolution.2.2.2.2.2.1
    "gpt-5-high" "medium" "xhigh" (by decide) (by decide) (by decide)
  rw [h]; decide

/-- Counterexample to claim C6 as stated: the parameters string 3 is
non-object parameter input (it parses to the number 3, not an object), yet
the converter passes the parsed number through instead of degrading it to
the empty-object schema. -/
theorem claim_C6_counterexample :
    (convertToolToResponseTool
      { name := "t", description := "", parameters := .pstr "3" }).parameters = .jnum 3
    ∧ Jx.jnum 3 ≠ emptySchema :=
  ⟨rfl, fun h => Jx.noConfusion h⟩

/-- Claim C6 (amended): converting a tool definition is total (the result
always carries kind function); structured-object parameters pass through;
a parameters string that fails JSON parsing degrades to the empty-object
schema, as does any non-string non-object value; a parameters string that
parses successfully passes the parsed value through, even when that value
is not an object. -/
theorem claim_C6_tool_conversion :
    (∀ tool : PromptMessageTool, (convertToolToResponseTool tool).type = "function")
    ∧ (∀ (name description : String) (fields : List (String × Jx)),
        (convertToolToResponseTool
          { name := name, description := description, parameters := .pdict fields }).parameters
          = .jobj fields)
    ∧ (∀ (name description s : String), jsonLoads s = Option.none →
        (convertToolToResponseTool
          { name := name, description := description, parameters := .pstr s }).parameters
          = emptySchema)
    ∧ (∀ (name description s : String) (v : Jx), jsonLoads s = some v →
        (convertToolToResponseTool
          { name := name, description := description, parameters := .pstr s }).parameters = v)
    ∧ (∀ (name description : String),
        (convertToolToResponseTool
          { name := name, description := description, parameters := .pother }).parameters
          = emptySchema) := by
  refine ⟨?_, ?_, ?_, ?_, ?_⟩
  · intro tool; rfl
  · intro name description fields; rfl
  · intro name description s h; simp [convertToolToResponseTool, h]
  · intro name description s v h; simp [convertToolToResponseTool, h]
  · intro name description; rfl

/-- Witness for claim C6: a non-JSON parameters string degrades to the
empty-object schema. -/
theorem claim_C6_witness :
    (convertToolToResponseTool
      { name := "t", description := "d", parameters := .pstr "not json" }).parameters
      = emptySchema :=
  claim_C6_tool_conversion.2.2.1 "t" "d" "not json" rfl

/-- Claim C7: the error-mapping wrapper classifies by the static table:
connection failures and timeouts map to the connection error, internal
server faults to server-unavailable, rate limiting to rate-limit,
authentication and permission faults to authorization, malformed request,
not-found, unprocessable entity and generic API faults to bad-request,
and everything else to the generic invoke error; in particular the
rate-limit fault, although an instance of the generic API fault class, is
classified rate-limit and not bad-request. -/
theorem claim_C7_error_classification :
    withInvokeErrorMapping .apiConnectionError = .invokeConnectionError
    ∧ withInvokeErrorMapping .apiTimeoutError = .invokeConnectionError
    ∧ withInvokeErrorMapping .internalServerError = .invokeServerUnavailableError
    ∧ withInvokeErrorMapping .rateLimitError = .invokeRateLimitError
    ∧ isInstanceOf .rateLimitError .apiError = true
    ∧ withInvokeErrorMapping .rateLimitError ≠ .invokeBadRequestError
    ∧ withInvokeErrorMapping .authenticationError = .invokeAuthorizationError
    ∧ withInvokeErrorMapping .permissionDeniedError = .invokeAuthorizationError
    ∧ withInvokeErrorMapping .badRequestError = .invokeBadRequestError
    ∧ withInvokeErrorMapping .notFoundError = .invokeBadRequestError
    ∧ withInvokeErrorMapping .unprocessableEntityError = .invokeBadRequestError
    ∧ withInvokeErrorMapping .apiStatusError = .invokeBadRequestError
    ∧ withInvokeErrorMapping .apiError = .invokeBadRequestError
    ∧ withInvokeErrorMapping .otherException = .invokeError := by
  decide

/-- Claim C8: usage resolution uses the remote prompt count when the usage
object is present and the count (under either field name, input_tokens
preferred over prompt_tokens) is non-zero, and falls back to local
tokenization of the prompt messages plus tools exactly when the usage
object is absent or the count resolves to zero; independently the same
holds for the completion count (output_tokens or completion_tokens),
falling back to local tokenization of the assembled assistant message. -/
theorem claim_C8_usage_resolution :
    ∀ (enc : String → Nat) (u : RemoteUsage) (r : RemoteResponse)
      (pm : List PromptMessage) (am : PromptMessage) (tools : List PromptMessageTool),
    (buildUsage enc Option.none pm am tools =
      { prompt_tokens := getNumTokens enc pm tools
      , completion_tokens := getNumTokens enc [am] [] })
    ∧ (buildUsage enc (some { r with usage := Option.none }) pm am tools =
      { prompt_tokens := getNumTokens enc pm tools
      , completion_tokens := getNumTokens enc [am] [] })
    ∧ (buildUsage enc (some { r with usage := some u }) pm am tools =
      { prompt_tokens :=
          if coalesceCount u.input_tokens u.prompt_tokens = 0
          then getNumTokens enc pm tools
          else coalesceCount u.input_tokens u.prompt_tokens
      , completion_tokens :=
          if coalesceCount u.output_tokens u.completion_tokens = 0
          then getNumTokens enc [am] []
          else coalesceCount u.output_tokens u.completion_tokens })
    ∧ (∀ n : Nat, n ≠ 0 → ∀ b : Option Nat, coalesceCount (some n) b = n)
    ∧ (∀ n : Nat, coalesceCount Option.none (some n) = n)
    ∧ (∀ n : Nat, coalesceCount (some 0) (some n) = n)
    ∧ coalesceCount Option.none Option.none = 0 := by
  intro enc u r pm am tools
  refine ⟨rfl, rfl, rfl, ?_, fun n => rfl, fun n => rfl, rfl⟩
  intro n hn b
  simp [coalesceCount, hn]

/-- Witness for claim C8: a remote-reported non-zero prompt count of 7 is
used as is. -/
theorem claim_C8_witness :
    coalesceCount (some 7) (some 3) = 7 := by
  have h := claim_C8_usage_resolution (fun _ => 0)
    { input_tokens := some 7 } { } [] (.assistant (.str "") []) []
  exact h.2.2.2.1 7 (by decide) (some 3)

/-- Claim C9: round trip.  Encoding the single user message with
plain-string content s yields exactly the input entry with role user and
content s, and decoding a non-streaming response without the denormalized
full-text field whose output holds one message item with one text-like
content part holding s produces a final turn whose assistant message
content is exactly s (and no tool calls). -/
theorem claim_C9_round_trip :
    ∀ (enc : String → Nat) (model s pt : String),
    (pt = "output_text" ∨ pt = "text" ∨ pt = "input_text") →
    convertPromptMessagesToResponsesInput [.user (.str s)] = [.roleText "user" s]
    ∧ (handleResponsesResponse enc model
        { output_text := Option.none
        , output := [{ type := "message", content := [{ type := pt, text := s }] }] }
        [.user (.str s)] []).message_content = s
    ∧ (handleResponsesResponse enc model
        { output_text := Option.none
        , output := [{ type := "message", content := [{ type := pt, text := s }] }] }
        [.user (.str s)] []).message_tool_calls = [] := by
  intro enc model s pt hpt
  refine ⟨rfl, ?_, rfl⟩
  by_cases hs : s = ""
  · subst hs
    rcases hpt with h | h | h <;> subst h <;> rfl
  · rcases hpt with h | h | h <;> subst h <;>
      simp [handleResponsesResponse, extractResponseText, hs, String.join]

/-- Witness for claim C9: the round trip at the concrete text hello. -/
theorem claim_C9_witness :
    (handleResponsesResponse (fun _ => 0) "m"
      { output_text := Option.none
      , output := [{ type := "message", content := [{ type := "output_text", text := "hello" }] }] }
      [.user (.str "hello")] []).message_content = "hello" :=
  (claim_C9_round_trip (fun _ => 0) "m" "hello" "output_text" (Or.inl rfl)).2.1

/-- Dict lookup after an in-place mutation at the same key. -/
theorem pmFind_pmModify (m : PendingMap) (k : String) (f : PendingToolCall → PendingToolCall) :
    pmFind (pmModify m k f) k = (pmFind m k).map f := by
  induction m with
  | nil => rfl
  | cons p rest ih =>
    by_cases h : p.1 = k
    · simp [pmFind, pmModify, List.find?, h]
    · simpa [pmFind, pmModify, List.find?, h] using ih

/-- Shape of one step of the event loop: the index advances by the number
of emitted chunks, each emitted chunk sits at the pre-step index and
carries neither finish reason nor usage, the finalized-call id list grows
exactly by the ids finalized by the event, and the ids of tool calls
inside the emitted chunks are exactly those finalized ids. -/
theorem stepEvent_inv (model : String) (st : StreamState) (e : StreamEvent) :
    (stepEvent model st e).1.index = st.index + (stepEvent model st e).2.length
    ∧ ((stepEvent model st e).2.map (fun c => c.delta.index))
        = List.range' st.index (stepEvent model st e).2.length
    ∧ (∀ c ∈ (stepEvent model st e).2,
        c.delta.finish_reason = Option.none ∧ c.delta.usage = Option.none)
    ∧ ((stepEvent model st e).1.tool_calls.map ToolCall.id
        = st.tool_calls.map ToolCall.id
          ++ (((stepEvent model st e).2.map (fun c => c.delta.message.tool_calls)).flatten).map
               ToolCall.id)
    ∧ ((((stepEvent model st e).2.map (fun c => c.delta.message.tool_calls)).flatten).map
         ToolCall.id = (doneEventId e).toList) := by
  cases e with
  | outputTextDelta delta item_id =>
    by_cases h : delta = "" <;>
      simp [stepEvent, doneEventId, h, List.range']
  | outputItemAdded item =>
    cases item with
    | none => simp [stepEvent, doneEventId]
    | some it =>
      by_cases h : it.type = "function_call" ∧ it.call_id ≠ "" <;>
        simp [stepEvent, doneEventId, h]
  | functionCallArgumentsDelta delta item_id =>
    cases hr : (if item_id = "" then st.current_tool_call else some item_id) with
    | none => simp [stepEvent, doneEventId, hr]
    | some call_id =>
      by_cases h : delta ≠ "" ∧ call_id ≠ "" ∧ (pmFind st.pending call_id).isSome <;>
        simp [stepEvent, doneEventId, hr, h]
  | functionCallArgumentsDone item_id arguments =>
    cases hr : (if item_id = "" then st.current_tool_call else some item_id) with
    | none => cases arguments <;> simp [stepEvent, doneEventId, hr]
    | some call_id =>
      cases arguments with
      | none => simp [stepEvent, doneEventId, hr]
      | some final_args =>
        by_cases h : call_id ≠ "" ∧ (pmFind st.pending call_id).isSome <;>
          simp [stepEvent, doneEventId, hr, h]
  | outputItemDone item =>
    cases item with
    | none => simp [stepEvent, doneEventId]
    | some it =>
      by_cases ht : it.type ≠ "function_call"
      · simp [stepEvent, doneEventId, ht]
      · have ht' : it.type = "function_call" := not_not.mp ht
        by_cases hn : it.name ≠ ""
        · simp [stepEvent, doneEventId, ht, ht', hn, buildToolCall, List.range']
        · simp [stepEvent, doneEventId, ht, ht', hn]
  | completed response => simp [stepEvent, doneEventId]
  | otherEvent => simp [stepEvent, doneEventId]

/-- The invariants of the whole event loop, accumulated over the event
list: chunk indices are consecutive from the starting index, the final
index is the starting index plus the number of chunks, no loop chunk
carries a finish reason or usage, and the finalized-call ids (in the state
and inside the chunks) are exactly the ids finalized by done events. -/
theorem processEvents_inv (model : String) :
    ∀ (events : List StreamEvent) (st : StreamState),
    (processEvents model st events).1.index = st.index + (processEvents model st events).2.length
    ∧ ((processEvents model st events).2.map (fun c => c.delta.index))
        = List.range' st.index (processEvents model st events).2.length
    ∧ (∀ c ∈ (processEvents model st events).2,
        c.delta.finish_reason = Option.none ∧ c.delta.usage = Option.none)
    ∧ ((processEvents model st events).1.tool_calls.map ToolCall.id
        = st.tool_calls.map ToolCall.id ++ events.filterMap doneEventId)
    ∧ ((((processEvents model st events).2.map (fun c => c.delta.message.tool_calls)).flatten).map
         ToolCall.id = events.filterMap doneEventId)
  | [], st => by simp [processEvents, List.range']
  | e :: es, st => by
    obtain ⟨h1, h2, h3, h4, h5⟩ := stepEvent_inv model st e
    obtain ⟨g1, g2, g3, g4, g5⟩ := processEvents_inv model es (stepEvent model st e).1
    refine ⟨?_, ?_, ?_, ?_, ?_⟩
    · simp only [processEvents, List.length_append]
      omega
    · have hsplit := List.range'_append st.index (stepEvent model st e).2.length
        (processEvents model (stepEvent model st e).1 es).2.length 1
      rw [Nat.one_mul] at hsplit
      rw [h1] at g2
      simp only [processEvents, List.map_append, List.length_append]
      rw [h2, g2, hsplit, Nat.add_comm]
    · simp only [processEvents, List.mem_append]
      rintro c (hc | hc)
      · exact h3 c hc
      · exact g3 c hc
    · simp only [processEvents, List.filterMap_cons]
      rw [g4, h4, h5]
      cases doneEventId e <;> simp
    · simp only [processEvents, List.map_append, List.flatten_append,
        List.filterMap_cons, h5, g5]
      cases doneEventId e <;> simp

/-- Claim C1: for every event stream, the emitted chunks carry indices
exactly 0, 1, 2, ... with no gaps or repeats; exactly one chunk carries a
finish reason, namely the last one; and the terminal chunk, with empty
delta text and usage attached, is emitted even for an empty event stream,
in which case it is the only chunk, at index 0. -/
theorem claim_C1_stream_chunk_indices (model : String) (enc : String → Nat)
    (pm : List PromptMessage) (tools : List PromptMessageTool) (events : List StreamEvent) :
    ((runStream model enc pm tools events).map (fun c => c.delta.index)
        = List.range (runStream model enc pm tools events).length)
    ∧ runStream model enc pm tools events ≠ []
    ∧ (∀ c ∈ (runStream model enc pm tools events).dropLast, c.delta.finish_reason = Option.none)
    ∧ (∃ c, (runStream model enc pm tools events).getLast? = some c
        ∧ c.delta.finish_reason.isSome = true ∧ c.delta.usage.isSome = true
        ∧ c.delta.message.content = "" ∧ c.delta.message.tool_calls = [])
    ∧ (events = [] →
        (runStream model enc pm tools events).map (fun c => c.delta.index) = [0]) := by
  obtain ⟨h1, h2, h3, _, _⟩ := processEvents_inv model events initialState
  have h1' : (processEvents model initialState events).1.index
      = (processEvents model initialState events).2.length := by
    simpa [initialState] using h1
  have hterm : (terminalChunk model enc pm tools
      (processEvents model initialState events).1).delta.index
      = (processEvents model initialState events).2.length := h1'
  refine ⟨?_, ?_, ?_, ?_, ?_⟩
  · simp only [runStream, List.map_append, List.length_append, List.map_cons, List.map_nil,
      List.length_cons, List.length_nil]
    rw [h2, hterm, List.range_succ, List.range_eq_range']
    rfl
  · simp [runStream]
  · intro c hc
    rw [runStream, List.dropLast_concat] at hc
    exact (h3 c hc).1
  · exact ⟨terminalChunk model enc pm tools (processEvents model initialState events).1,
      by simp [runStream], rfl, rfl, rfl, rfl⟩
  · intro h
    subst h
    rfl

/-- Witness for claim C1: the empty event stream yields exactly the
terminal chunk, at index 0. -/
theorem claim_C1_witness :
    (runStream "m" (fun _ => 0) [] [] []).map (fun c => c.delta.index) = [0] :=
  (claim_C1_stream_chunk_indices "m" (fun _ => 0) [] [] []).2.2.2.2 rfl

/-- Claim C4: the terminal chunk's finish reason is tool_calls exactly when
at least one tool call was finalized and the accumulated full text is
empty or whitespace-only; in every other case it is stop. -/
theorem claim_C4_finish_reason (model : String) (enc : String → Nat)
    (pm : List PromptMessage) (tools : List PromptMessageTool) (events : List StreamEvent) :
    ∃ c, (runStream model enc pm tools events).getLast? = some c
      ∧ (c.delta.finish_reason = some "tool_calls" ↔
          ((processEvents model initialState events).1.tool_calls ≠ []
            ∧ pyStripIsEmpty (processEvents model initialState events).1.full_text = true))
      ∧ (c.delta.finish_reason = some "stop" ↔
          ¬((processEvents model initialState events).1.tool_calls ≠ []
            ∧ pyStripIsEmpty (processEvents model initialState events).1.full_text = true)) := by
  refine ⟨terminalChunk model enc pm tools (processEvents model initialState events).1,
    by simp [runStream], ?_, ?_⟩ <;>
    · show some (finishReason _) = _ ↔ _
      unfold finishReason
      by_cases h : (processEvents model initialState events).1.tool_calls ≠ []
          ∧ pyStripIsEmpty (processEvents model initialState events).1.full_text = true
      · rw [if_pos h]
        simp [h]
      · rw [if_neg h]
        simp [h]

/-- Witness for claim C4: on the empty event stream the finish reason of
the terminal (only) chunk is stop. -/
theorem claim_C4_witness :
    ∃ c, (runStream "m" (fun _ => 0) [] [] []).getLast? = some c
      ∧ c.delta.finish_reason = some "stop" := by
  obtain ⟨c, hc, _, h2⟩ := claim_C4_finish_reason "m" (fun _ => 0) [] [] []
  exact ⟨c, hc, h2.mpr (fun hcontra => hcontra.1 rfl)⟩

/-- Counterexample to claim C2 as stated: an arguments-done event carrying
the empty string (a complete argument string) does overwrite the buffer,
but the subsequently finalized tool call then carries the item's own
arguments field, not the done-event's (empty) string. -/
theorem claim_C2_counterexample :
    ((processEvents "m" initialState
      [ .outputItemAdded (some { type := "function_call", call_id := "c1", name := "f" })
      , .functionCallArgumentsDelta "argsDelta" "c1"
      , .functionCallArgumentsDone "c1" (some "")
      , .outputItemDone (some
          { type := "function_call", call_id := "c1", name := "f", arguments := "itemArgs" })
      ]).1.tool_calls.map (fun tc => tc.function.arguments)) = ["itemArgs"]
    ∧ ("itemArgs" : String) ≠ "" := ⟨rfl, by decide⟩

/-- Claim C2 (amended): when a call id is known to the pending map, an
arguments-done event carrying a complete argument string for it overwrites
the buffered arguments with exactly that string, whatever deltas were
accumulated before; and when that string is non-empty, the tool call
finalized at the subsequent output-item-done event carries exactly that
string. -/
theorem claim_C2_done_overwrites (model : String) (st : StreamState)
    (call_id s name item_args : String)
    (hknown : (pmFind st.pending call_id).isSome = true) (hcid : call_id ≠ "")
    (hs : s ≠ "") (hname : name ≠ "") :
    ((pmFind (stepEvent model st (.functionCallArgumentsDone call_id (some s))).1.pending
        call_id).map PendingToolCall.arguments = some s)
    ∧ ((stepEvent model (stepEvent model st (.functionCallArgumentsDone call_id (some s))).1
        (.outputItemDone (some
          { type := "function_call", call_id := call_id, name := name,
            arguments := item_args }))).2.map
        (fun c => c.delta.message.tool_calls.map (fun tc => tc.function.arguments))) = [[s]]
    ∧ (stepEvent model (stepEvent model st (.functionCallArgumentsDone call_id (some s))).1
        (.outputItemDone (some
          { type := "function_call", call_id := call_id, name := name,
            arguments := item_args }))).1.tool_calls
      = (stepEvent model st (.functionCallArgumentsDone call_id (some s))).1.tool_calls
          ++ [buildToolCall name call_id s] := by
  obtain ⟨e0, he0⟩ := Option.isSome_iff_exists.mp hknown
  have hfind : (pmFind (stepEvent model st
      (.functionCallArgumentsDone call_id (some s))).1.pending call_id).map
        PendingToolCall.arguments = some s := by
    simp [stepEvent, hcid, hknown, pmFind_pmModify, he0]
  refine ⟨hfind, ?_, ?_⟩ <;>
    simp [stepEvent, hcid, hknown, hname, pmFind_pmModify, he0, buildToolCall, pyOr, hs]

/-- Witness for claim C2: from a state holding buffered partial arguments,
the done-event string fullargs wins and is carried by the finalized call. -/
theorem claim_C2_witness :
    ((stepEvent "m" ((stepEvent "m"
      { initialState with pending := [("c1", { name := "f", arguments := "partial" })]
                        , current_tool_call := some "c1" }
      (.functionCallArgumentsDone "c1" (some "fullargs"))).1)
      (.outputItemDone (some
        { type := "function_call", call_id := "c1", name := "f",
          arguments := "itemArgs" }))).2.map
      (fun c => c.delta.message.tool_calls.map (fun tc => tc.function.arguments))) = [["fullargs"]] :=
  (claim_C2_done_overwrites "m"
    { initialState with pending := [("c1", { name := "f", arguments := "partial" })]
                      , current_tool_call := some "c1" }
    "c1" "fullargs" "f" "itemArgs" rfl (by decide) (by decide) (by decide)).2.1

/-- Counterexample to claim C3 as stated: the call id c1 is known to the
pending map (with an empty buffer), yet the finalized tool call carries
the item's own arguments field argsA rather than the buffered (empty)
arguments. -/
theorem claim_C3_counterexample :
    ((processEvents "m" initialState
      [ .outputItemAdded (some { type := "function_call", call_id := "c1", name := "f" })
      , .outputItemDone (some
          { type := "function_call", call_id := "c1", name := "f", arguments := "argsA" })
      ]).1.tool_calls.map (fun tc => tc.function.arguments)) = ["argsA"]
    ∧ ("argsA" : String) ≠ "" ∧ ("argsA" : String) ≠ jsonEmptyObject := ⟨rfl, by decide, by decide⟩

/-- Claim C3 (amended): for every output-item-done event whose item is a
function call with a non-empty name, exactly one tool call is finalized
and emitted, and its arguments are: the buffered arguments when the call
id is known to the pending map and the buffer is non-empty; else the
item's own arguments field when non-empty; else the empty JSON object
(the specEffectiveArguments comparator). -/
theorem claim_C3_effective_arguments (model : String) (st : StreamState) (it : StreamItem)
    (htype : it.type = "function_call") (hname : it.name ≠ "") :
    (stepEvent model st (.outputItemDone (some it))).1.tool_calls
      = st.tool_calls ++ [buildToolCall it.name it.call_id (specEffectiveArguments st it)]
    ∧ ((stepEvent model st (.outputItemDone (some it))).2.map
        (fun c => c.delta.message.tool_calls))
      = [[buildToolCall it.name it.call_id (specEffectiveArguments st it)]]
    ∧ (buildToolCall it.name it.call_id (specEffectiveArguments st it)).function.arguments
      = specEffectiveArguments st it := by
  have hargs : (if it.call_id ≠ "" then
      match pmFind st.pending it.call_id with
      | some entry => pyOr entry.arguments (pyOr it.arguments jsonEmptyObject)
      | Option.none => pyOr it.arguments jsonEmptyObject
    else pyOr it.arguments jsonEmptyObject) = specEffectiveArguments st it := by
    unfold specEffectiveArguments
    by_cases hc : it.call_id = ""
    · simp [hc]
    · cases hf : pmFind st.pending it.call_id with
      | none => simp [hc, hf]
      | some entry =>
        by_cases he : entry.arguments = "" <;> simp [hc, hf, he, pyOr]
  have hne : specEffectiveArguments st it ≠ "" := by
    unfold specEffectiveArguments
    by_cases hc : it.call_id = ""
    · simp only [hc]
      by_cases ha : it.arguments = "" <;> simp [pyOr, ha, jsonEmptyObject]
    · simp only [hc]
      cases hf : pmFind st.pending it.call_id with
      | none => by_cases ha : it.arguments = "" <;> simp [hf, pyOr, ha, jsonEmptyObject, hc]
      | some entry =>
        by_cases he : entry.arguments = "" <;>
          · by_cases ha : it.arguments = "" <;> simp [hf, pyOr, ha, he, jsonEmptyObject, hc]
  refine ⟨?_, ?_, ?_⟩
  · simp [stepEvent, htype, hname, hargs]
  · simp [stepEvent, htype, hname, hargs]
  · simp [buildToolCall, pyOr, hne]

/-- Witness for claim C3: a known call id with buffered arguments bufArgs
finalizes with exactly those buffered arguments. -/
theorem claim_C3_witness :
    (stepEvent "m"
      { initialState with pending := [("c1", { name := "f", arguments := "bufArgs" })] }
      (.outputItemDone (some
        { type := "function_call", call_id := "c1", name := "f",
          arguments := "itemArgs" }))).1.tool_calls
      = [buildToolCall "f" "c1" "bufArgs"] := by
  have h := (claim_C3_effective_arguments "m"
    { initialState with pending := [("c1", { name := "f", arguments := "bufArgs" })] }
    { type := "function_call", call_id := "c1", name := "f", arguments := "itemArgs" }
    rfl (by decide)).1
  rw [h]
  rfl

/-- Claim C10: a function call announced under a call id for which no
output-item-done event ever finalizes a call is dropped silently: no
emitted chunk carries a tool call with that id, the finalized list holds
no call with that id, the pending buffer is discarded without surfacing
(the terminal chunk has empty content and no tool calls), and a
tool_calls finish reason can only arise from some finalizing done event. -/
theorem claim_C10_abandoned_calls (model : String) (enc : String → Nat)
    (pm : List PromptMessage) (tools : List PromptMessageTool)
    (events : List StreamEvent) (cid : String)
    (hannounced : ∃ it, StreamEvent.outputItemAdded (some it) ∈ events
      ∧ it.type = "function_call" ∧ it.call_id = cid)
    (hnodone : ∀ e ∈ events, doneEventId e ≠ some cid) :
    (∀ chunk ∈ runStream model enc pm tools events,
      ∀ tc ∈ chunk.delta.message.tool_calls, tc.id ≠ cid)
    ∧ (∀ tc ∈ (processEvents model initialState events).1.tool_calls, tc.id ≠ cid)
    ∧ (∀ chunk, (runStream model enc pm tools events).getLast? = some chunk →
        chunk.delta.message.content = "" ∧
        (chunk.delta.finish_reason = some "tool_calls" →
          ∃ e ∈ events, (doneEventId e).isSome = true)) := by
  obtain ⟨_, _, _, h4, h5⟩ := processEvents_inv model events initialState
  have hids : ∀ i ∈ events.filterMap doneEventId, i ≠ cid := by
    intro i hi
    obtain ⟨e, he, hde⟩ := List.mem_filterMap.mp hi
    intro hc
    exact hnodone e he (hc ▸ hde)
  have hstate : ∀ tc ∈ (processEvents model initialState events).1.tool_calls, tc.id ≠ cid := by
    intro tc htc
    have : tc.id ∈ (processEvents model initialState events).1.tool_calls.map ToolCall.id :=
      List.mem_map_of_mem ToolCall.id htc
    rw [h4] at this
    simp only [initialState, List.map_nil, List.nil_append] at this
    exact hids tc.id this
  refine ⟨?_, hstate, ?_⟩
  · intro chunk hchunk tc htc
    rw [runStream, List.mem_append] at hchunk
    rcases hchunk with hchunk | hchunk
    · have : tc.id ∈ (((processEvents model initialState events).2.map
          (fun c => c.delta.message.tool_calls)).flatten).map ToolCall.id := by
        exact List.mem_map_of_mem ToolCall.id
          (List.mem_flatten.mpr ⟨chunk.delta.message.tool_calls,
            List.mem_map_of_mem (fun c => c.delta.message.tool_calls) hchunk, htc⟩)
      rw [h5] at this
      exact hids tc.id this
    · have hterm : chunk = terminalChunk model enc pm tools
          (processEvents model initialState events).1 := by
        have := hchunk
        simp only [List.mem_singleton] at this
        exact this
      rw [hterm] at htc
      simp [terminalChunk] at htc
  · intro chunk hchunk
    have hterm : chunk = terminalChunk model enc pm tools
        (processEvents model initialState events).1 := by
      rw [runStream] at hchunk
      rw [List.getLast?_concat] at hchunk
      exact (Option.some.inj hchunk).symm
    subst hterm
    refine ⟨rfl, ?_⟩
    intro hfr
    have hcond : (processEvents model initialState events).1.tool_calls ≠ [] := by
      intro hnil
      have : finishReason (processEvents model initialState events).1 = "stop" := by
        unfold finishReason
        rw [if_neg (fun hh => hh.1 hnil)]
      have hfr' : finishReason (processEvents model initialState events).1 = "tool_calls" :=
        Option.some.inj hfr
      rw [hfr'] at this
      exact absurd this (by decide)
    have hne : events.filterMap doneEventId ≠ [] := by
      intro hnil
      apply hcond
      have := h4
      rw [hnil] at this
      simp only [initialState, List.map_nil, List.nil_append, List.append_nil] at this
      exact List.map_eq_nil_iff.mp this
    obtain ⟨i, hi⟩ := List.exists_mem_of_ne_nil _ hne
    obtain ⟨e, he, hde⟩ := List.mem_filterMap.mp hi
    exact ⟨e, he, by simp [hde]⟩

/-- Witness for claim C10: with call c1 announced and fed a delta but never
finalized, while a second call c2 completes, the finalized call's id is
not c1. -/
theorem claim_C10_witness :
    (buildToolCall "g" "c2" jsonEmptyObject).id ≠ "c1" := by
  have h := (claim_C10_abandoned_calls "m" (fun _ => 0) [] []
    [ .outputItemAdded (some { type := "function_call", call_id := "c1", name := "f" })
    , .functionCallArgumentsDelta "partial" "c1"
    , .outputItemAdded (some { type := "function_call", call_id := "c2", name := "g" })
    , .outputItemDone (some { type := "function_call", call_id := "c2", name := "g" })
    ] "c1"
    ⟨{ type := "function_call", call_id := "c1", name := "f" }, by simp, rfl, rfl⟩
    (by
      intro e he
      simp only [List.mem_cons, List.not_mem_nil, or_false] at he
      rcases he with h | h | h | h <;> subst h <;> simp [doneEventId, pyOr])).2.1
  exact h (buildToolCall "g" "c2" jsonEmptyObject) (by
    show _ ∈ (processEvents "m" initialState _).1.tool_calls
    rw [show (processEvents "m" initialState
      [ .outputItemAdded (some { type := "function_call", call_id := "c1", name := "f" })
      , .functionCallArgumentsDelta "partial" "c1"
      , .outputItemAdded (some { type := "function_call", call_id := "c2", name := "g" })
      , .outputItemDone (some { type := "function_call", call_id := "c2", name := "g" })
      ]).1.tool_calls = [buildToolCall "g" "c2" jsonEmptyObject] from rfl]
    simp)

end Wuwu
